import Mathlib

/-
Shallow embedding of the equipment tracker record store
(src/equipment_tracker_enhanced.c).

Strings are modelled as lists of character codes (`List Nat`), machine
integers as `Nat` with explicit `% 2 ^ 32` where the C code relies on
unsigned wraparound (the djb2 hash).  The numeric record fields are the
values the program actually holds: ids come from the allocator or the
database (positive), and quantity / min_threshold / classification /
priority are read through `get_int_input` with non-negative lower bounds.
The in-memory arrays `inventory[]` / `requests[]` together with
`item_count` / `request_count` are modelled as lists holding exactly the
live elements; the hash table is derived from the inventory list (the
program inserts every live record exactly once and never mutates a name,
so each bucket holds, most recently inserted first, the records whose
name hashes to it).
-/

namespace EquipTracker

def MAX_ITEMS : Nat := 1000
def MAX_REQUESTS : Nat := 500
def HASH_SIZE : Nat := 1009

def REQ_PENDING : Nat := 0
def REQ_APPROVED : Nat := 1
def REQ_FULFILLED : Nat := 2
def REQ_DENIED : Nat := 3

/-- ASCII lower-casing of one character code, as C `tolower` behaves on
the ASCII range used by `strcasestr`. -/
def lowerChar (c : Nat) : Nat :=
  if 65 ≤ c ∧ c ≤ 90 then c + 32 else c

def lowerStr (s : List Nat) : List Nat := s.map lowerChar

/-- `leadMatch h n = true` iff `n` occurs at the very start of `h`. -/
def leadMatch : List Nat → List Nat → Bool
  | _, [] => true
  | [], _ :: _ => false
  | a :: as, b :: bs => a == b && leadMatch as bs

/-- `findSub h n = true` iff `n` occurs contiguously somewhere in `h`. -/
def findSub : List Nat → List Nat → Bool
  | [], n => leadMatch [] n
  | a :: t, n => leadMatch (a :: t) n || findSub t n

/-- Case-insensitive substring test: the behaviour of
`strcasestr(hay, needle) != NULL` on ASCII data. -/
def containsCI (hay needle : List Nat) : Bool :=
  findSub (lowerStr hay) (lowerStr needle)

/-- One step of the djb2 loop `hash = ((hash << 5) + hash) + c` on a
32-bit unsigned int. -/
def hashStep (h c : Nat) : Nat := (h * 33 + c) % 4294967296

/-- `hash_function`: djb2 over the character codes, reduced mod
`HASH_SIZE`. -/
def hash_function (s : List Nat) : Nat :=
  (s.foldl hashStep 5381) % HASH_SIZE

structure Equipment where
  id : Nat
  name : List Nat
  description : List Nat
  quantity : Nat
  min_threshold : Nat
  unit : List Nat
  location : List Nat
  last_updated : Nat
  classification : Nat
  checksum : List Nat
  deriving DecidableEq, Repr

structure SupplyRequest where
  req_id : Nat
  equipment_id : Nat
  requested_qty : Nat
  requesting_unit : List Nat
  request_time : Nat
  status : Nat
  priority : Nat
  deriving DecidableEq, Repr

/-- The user-supplied fields of a new equipment record (everything
`add_equipment` reads from the operator before deriving id, timestamp
and checksum). -/
structure Draft where
  name : List Nat
  description : List Nat
  quantity : Nat
  min_threshold : Nat
  unit : List Nat
  location : List Nat
  classification : Nat
  deriving DecidableEq, Repr

/-- The mutable global state of the store: `inventory[0..item_count)`,
`requests[0..request_count)`, and the two allocator counters. -/
structure Store where
  inventory : List Equipment
  requests : List SupplyRequest
  next_item_id : Nat
  next_request_id : Nat
  deriving DecidableEq, Repr

/-- State at program start: empty arrays, both counters at 1. -/
def initStore : Store := ⟨[], [], 1, 1⟩

/-- `sprintf("%04d", n)` for `0 ≤ n < 10000`, the only range
`calculate_checksum` produces: four ASCII digit codes, zero padded. -/
def format4 (n : Nat) : List Nat :=
  [48 + n / 1000 % 10, 48 + n / 100 % 10, 48 + n / 10 % 10, 48 + n % 10]

/-- `calculate_checksum`: starts from `id + quantity + min_threshold`,
adds the character codes of `name` in order, reduces mod 10000. -/
def calculate_checksum (e : Equipment) : Nat :=
  (e.name.foldl (fun s c => s + c) (e.id + e.quantity + e.min_threshold)) % 10000

inductive StockStatus where
  | STATUS_OK
  | STATUS_WATCH
  | STATUS_LOW
  deriving DecidableEq, Repr

/-- `get_stock_status`.  The C test `quantity <= (int)(min_threshold * 1.5)`
is exact: for every non-negative int `t`, `t * 1.5` is exactly
representable as a double (the product has at most 33 significant bits)
and the int cast truncates, so `(int)(t * 1.5) = 3 * t / 2` in `Nat`
division, i.e. `floor(1.5 * t)`. -/
def get_stock_status (e : Equipment) : StockStatus :=
  if e.quantity ≤ e.min_threshold then .STATUS_LOW
  else if e.quantity ≤ 3 * e.min_threshold / 2 then .STATUS_WATCH
  else .STATUS_OK

/-- `find_by_id`: linear scan, first record with the given id. -/
def find_by_id (st : Store) (id : Nat) : Option Equipment :=
  st.inventory.find? (fun e => e.id == id)

/-- Contents of one hash bucket, most recently inserted first.  Records
are inserted in inventory order (bulk load inserts the loaded records in
order, each `add_equipment` inserts the appended record), and each
`hash_insert` pushes on the front of its bucket, so bucket `b` holds the
reverse of the inventory-order records whose name hashes to `b`. -/
def bucket (st : Store) (b : Nat) : List Equipment :=
  (st.inventory.filter (fun e => hash_function e.name == b)).reverse

/-- `hash_find`: walk the bucket of the query's hash; return the first
record whose name contains the query case-insensitively. -/
def hash_find (st : Store) (q : List Nat) : Option Equipment :=
  (bucket st (hash_function q)).find? (fun e => containsCI e.name q)

/-- The records `check_inventory` displays for a query: the single
`hash_find` hit when there is one, otherwise every record whose name
contains the query case-insensitively (the fallback linear scan). -/
def check_inventory_results (st : Store) (q : List Nat) : List Equipment :=
  match hash_find st q with
  | some e => [e]
  | none => st.inventory.filter (fun e => containsCI e.name q)

/-- The record produced by `update_quantity`'s write sequence: set
`quantity`, refresh `last_updated`, recompute the checksum from the
updated record. -/
def updatedRec (e : Equipment) (qty now : Nat) : Equipment :=
  { e with quantity := qty, last_updated := now,
           checksum := format4 (calculate_checksum { e with quantity := qty }) }

/-- Replace the first record with the given id by its updated version;
`none` when no record has the id. -/
def updateFirst (qty now id : Nat) : List Equipment → Option (List Equipment)
  | [] => none
  | e :: rest =>
    if e.id == id then some (updatedRec e qty now :: rest)
    else
      match updateFirst qty now id rest with
      | none => none
      | some rest' => some (e :: rest')

/-- `update_quantity` (the store effect; returns `true` on success).
Database replication does not touch the in-memory state. -/
def update_quantity (st : Store) (id qty now : Nat) : Store × Bool :=
  match updateFirst qty now id st.inventory with
  | none => (st, false)
  | some inv' => ({ st with inventory := inv' }, true)

/-- The record `add_equipment` has built just before the database step:
id from the allocator, the draft fields, the timestamp, and the checksum
computed from those very fields (lines 632–649 of the source). -/
def newItem (st : Store) (d : Draft) (now : Nat) : Equipment :=
  { id := st.next_item_id, name := d.name, description := d.description,
    quantity := d.quantity, min_threshold := d.min_threshold,
    unit := d.unit, location := d.location, last_updated := now,
    classification := d.classification,
    checksum := format4 (calculate_checksum
      { id := st.next_item_id, name := d.name, description := d.description,
        quantity := d.quantity, min_threshold := d.min_threshold,
        unit := d.unit, location := d.location, last_updated := now,
        classification := d.classification, checksum := [] }) }

/-- `add_equipment`.  `dbResp` is the external database's reply to the
INSERT (`none` in offline mode; `some r` with `r ≤ 0` models a failed
insert, which the code treats like offline).  The C order of effects:
capacity check; `id = next_item_id++`; read draft; set timestamp;
compute checksum (from the allocator id); in database mode overwrite the
id with the returned one and re-sync the counter when it is fresh;
append; hash-insert. -/
def add_equipment (st : Store) (d : Draft) (now : Nat) (dbResp : Option Nat) :
    Store × Option Equipment :=
  if MAX_ITEMS ≤ st.inventory.length then (st, none)
  else
    let item0 := newItem st d now
    match dbResp with
    | some dbId =>
      if 0 < dbId then
        let item1 := { item0 with id := dbId }
        let nid :=
          if st.next_item_id + 1 ≤ dbId then dbId + 1 else st.next_item_id + 1
        ({ st with inventory := st.inventory ++ [item1], next_item_id := nid },
         some item1)
      else
        ({ st with inventory := st.inventory ++ [item0],
                   next_item_id := st.next_item_id + 1 },
         some item0)
    | none =>
      ({ st with inventory := st.inventory ++ [item0],
                 next_item_id := st.next_item_id + 1 },
       some item0)

/-- `request_supply` (the store effect).  The C order of effects:
capacity check; `req_id = next_request_id++`; read the equipment id;
`find_by_id` — on a miss the function returns with the counter already
incremented and nothing stored; otherwise fill the record, set
`status = REQ_PENDING`, in database mode overwrite `req_id` with the
returned one and re-sync the counter, then `request_count++`. -/
def request_supply (st : Store) (eqId qty : Nat) (unitName : List Nat)
    (prio now : Nat) (dbResp : Option Nat) : Store × Option SupplyRequest :=
  if MAX_REQUESTS ≤ st.requests.length then (st, none)
  else
    let rid := st.next_request_id
    let st1 := { st with next_request_id := st.next_request_id + 1 }
    match find_by_id st eqId with
    | none => (st1, none)
    | some _ =>
      let req0 : SupplyRequest :=
        { req_id := rid, equipment_id := eqId, requested_qty := qty,
          requesting_unit := unitName, request_time := now,
          status := REQ_PENDING, priority := prio }
      match dbResp with
      | some dbId =>
        if 0 < dbId then
          let req1 := { req0 with req_id := dbId }
          let nrid := if rid + 1 ≤ dbId then dbId + 1 else rid + 1
          ({ st1 with requests := st1.requests ++ [req1], next_request_id := nrid },
           some req1)
        else
          ({ st1 with requests := st1.requests ++ [req0] }, some req0)
      | none =>
        ({ st1 with requests := st1.requests ++ [req0] }, some req0)

/-- Run a sequence of `add_equipment` calls; returns the final store and
the ids of the successfully created records in issuance order.  Each
element carries the draft, the timestamp, and the database reply. -/
def run_creates : Store → List (Draft × Nat × Option Nat) → Store × List Nat
  | st, [] => (st, [])
  | st, c :: rest =>
    let step := add_equipment st c.1 c.2.1 c.2.2
    let tail := run_creates step.1 rest
    (tail.1,
     (match step.2 with | some item => [item.id] | none => []) ++ tail.2)

/-- Environment assumption on the database replies along a run: every id
the database hands back for an insert is fresh, i.e. at least the
allocator counter at the time of the call (a sequential autoincrement
column satisfies this).  Offline runs (`none` replies) satisfy it
trivially, as do failed inserts (reply `0`). -/
def dbFresh : Store → List (Draft × Nat × Option Nat) → Bool
  | _, [] => true
  | st, c :: rest =>
    (match c.2.2 with
     | none => true
     | some dbId => dbId == 0 || decide (st.next_item_id ≤ dbId)) &&
    dbFresh (add_equipment st c.1 c.2.1 c.2.2).1 rest

/-- `load_equipment_from_db`: replaces the inventory with the selected
rows (silently truncated to `MAX_ITEMS`), and for each loaded row runs
`if (id >= next_item_id) next_item_id = id + 1`. -/
def db_load_items (st : Store) (items : List Equipment) : Store :=
  let items' := items.take MAX_ITEMS
  { st with
    inventory := items',
    next_item_id :=
      items'.foldl (fun n e => if n ≤ e.id then e.id + 1 else n) st.next_item_id }

/-- The two binary snapshot files of the file backend, as written:
`[count][nextId][records]` for each entity kind. -/
structure FileData where
  itemCount : Nat
  nextItemId : Nat
  items : List Equipment
  reqCount : Nat
  nextReqId : Nat
  reqs : List SupplyRequest
  deriving DecidableEq, Repr

/-- `save_data` (file mode): writes `item_count`, `next_item_id`, the
live inventory records, then the same for requests. -/
def save_data (st : Store) : FileData :=
  ⟨st.inventory.length, st.next_item_id, st.inventory,
   st.requests.length, st.next_request_id, st.requests⟩

/-- `load_data` (file mode, both files present): reads the stored counts
and counters verbatim and the stored records (`count` of them). -/
def load_data_file (f : FileData) : Store :=
  { inventory := f.items.take f.itemCount,
    next_item_id := f.nextItemId,
    requests := f.reqs.take f.reqCount,
    next_request_id := f.nextReqId }

/-- The store-mutating operations reachable from the interactive menu
(searches, listings, alerts and report export are read-only). -/
inductive Op where
  | add : Draft → Nat → Option Nat → Op
  | updateQty : Nat → Nat → Nat → Op
  | request : Nat → Nat → List Nat → Nat → Nat → Option Nat → Op
  deriving DecidableEq, Repr

def applyOp (st : Store) : Op → Store
  | .add d now dbResp => (add_equipment st d now dbResp).1
  | .updateQty id q now => (update_quantity st id q now).1
  | .request e q u p now dbResp => (request_supply st e q u p now dbResp).1

def runOps : Store → List Op → Store
  | st, [] => st
  | st, op :: rest => runOps (applyOp st op) rest

/-- The id invariant of the store: every held id is below the allocator
counter, and the held ids are pairwise distinct. -/
def StoreInv (st : Store) : Prop :=
  (∀ e ∈ st.inventory, e.id < st.next_item_id) ∧
  (st.inventory.map Equipment.id).Nodup

/- Concrete data used by counterexamples and witnesses. -/

/-- An item named `Tent` (codes of T, e, n, t). -/
def tentOne : Equipment :=
  ⟨1, [84, 101, 110, 116], [], 5, 1, [], [], 0, 0, []⟩

/-- An item named `Tent2`; its name contains `Tent` but hashes to a
different bucket. -/
def tentTwo : Equipment :=
  ⟨2, [84, 101, 110, 116, 50], [], 5, 1, [], [], 0, 0, []⟩

def stC1 : Store := ⟨[tentOne, tentTwo], [], 3, 1⟩

/-- The query `Tent`. -/
def queryTent : List Nat := [84, 101, 110, 116]

/-- The query `ent`: a substring of both names whose own hash bucket
holds neither record, so the index misses and the scan runs. -/
def queryEnt : List Nat := [101, 110, 116]

/-- A draft named `A` with quantity 2 and threshold 3. -/
def draftA : Draft := ⟨[65], [], 2, 3, [], [], 0⟩

/-- Equipment with id 5, as stored in the crafted snapshot below. -/
def itemFive : Equipment := ⟨5, [84], [], 1, 1, [], [], 0, 0, []⟩

/-- A file snapshot whose stored counter (5) does not exceed the largest
stored id (5). -/
def fileFive : FileData := ⟨1, 5, [itemFive], 0, 1, []⟩

/-- A well-formed snapshot: counter 6 exceeds the largest stored id 5. -/
def fileGood : FileData := ⟨1, 6, [itemFive], 0, 1, []⟩

/-- The record committed by creating `draftA` from the initial store when
the database returns id 10001: the allocator id was 1, and
`10001 ≡ 1 [MOD 10000]`, so the stale checksum `0071` also matches the
committed record. -/
def itemCongruent : Equipment :=
  ⟨10001, [65], [], 2, 3, [], [], 0, 0, [48, 48, 55, 49]⟩

/-- The record committed by creating `draftA` from the initial store when
the database returns id 7: the stale checksum `0071` was computed under
the allocator id 1. -/
def itemSeven : Equipment :=
  ⟨7, [65], [], 2, 3, [], [], 0, 0, [48, 48, 55, 49]⟩

/-- A pending supply request as created by the witness run below. -/
def reqW : SupplyRequest := ⟨1, 1, 2, [], 0, 0, 1⟩

/-- A store holding one item and one pending request. -/
def stReq : Store := ⟨[tentOne], [reqW], 3, 2⟩

/-- Witness run: two offline creates. -/
def dsW : List (Draft × Nat × Option Nat) := [(draftA, 0, none), (draftA, 1, none)]

/-- Witness run for C9: one create, then one request against it. -/
def opsW : List Op := [Op.add draftA 0 none, Op.request 1 2 [] 1 0 none]

/- Helper lemmas. -/

lemma foldl_add_eq (l : List Nat) (a : Nat) :
    l.foldl (fun s c => s + c) a = a + l.sum := by
  induction l generalizing a with
  | nil => simp
  | cons c t ih => simp [List.foldl, ih]; omega

/- Claim theorems. -/

/-- C3: `get_stock_status` returns `STATUS_LOW` exactly when
`quantity ≤ min_threshold`; otherwise `STATUS_WATCH` exactly when
`quantity ≤ floor(min_threshold * 1.5)` (here `3 * t / 2` in `Nat`
division, which is exact for the C cast); otherwise `STATUS_OK` — with
the Low test strictly first.  In particular with threshold 10, quantity
10 is Low, 14 is Watch, 16 is OK. -/
theorem c3_stock_status_boundaries :
    (∀ e : Equipment,
      (get_stock_status e = .STATUS_LOW ↔ e.quantity ≤ e.min_threshold) ∧
      (get_stock_status e = .STATUS_WATCH ↔
        (e.min_threshold < e.quantity ∧ e.quantity ≤ 3 * e.min_threshold / 2)) ∧
      (get_stock_status e = .STATUS_OK ↔
        (e.min_threshold < e.quantity ∧ 3 * e.min_threshold / 2 < e.quantity))) ∧
    get_stock_status ⟨1, [], [], 10, 10, [], [], 0, 0, []⟩ = .STATUS_LOW ∧
    get_stock_status ⟨1, [], [], 14, 10, [], [], 0, 0, []⟩ = .STATUS_WATCH ∧
    get_stock_status ⟨1, [], [], 16, 10, [], [], 0, 0, []⟩ = .STATUS_OK := by
  refine ⟨fun e => ?_, by decide, by decide, by decide⟩
  unfold get_stock_status
  split_ifs with h1 h2 <;>
    refine ⟨?_, ?_, ?_⟩ <;> simp_all

/-- C4: `calculate_checksum` equals
`(id + quantity + min_threshold + sum of name codes) % 10000`, its
`%04d` rendering is a 4-character string, and it is a pure function of
`(id, quantity, min_threshold, name)`: any two records agreeing on those
four fields have equal checksums, so no other field influences it and
recomputation on unchanged fields is identical. -/
theorem c4_checksum_formula (e : Equipment) :
    calculate_checksum e =
      (e.id + e.quantity + e.min_threshold + e.name.sum) % 10000 ∧
    (format4 (calculate_checksum e)).length = 4 ∧
    ∀ e' : Equipment, e.id = e'.id → e.quantity = e'.quantity →
      e.min_threshold = e'.min_threshold → e.name = e'.name →
      calculate_checksum e = calculate_checksum e' := by
  refine ⟨?_, rfl, ?_⟩
  · unfold calculate_checksum
    rw [foldl_add_eq]
  · intro e' h1 h2 h3 h4
    unfold calculate_checksum
    rw [h1, h2, h3, h4]

/-- C4 witness: evaluation at a record named `Tent`, and at a copy that
differs only in its description. -/
theorem c4_checksum_formula_witness :
    calculate_checksum tentOne =
      (tentOne.id + tentOne.quantity + tentOne.min_threshold +
        tentOne.name.sum) % 10000 ∧
    calculate_checksum tentOne =
      calculate_checksum ⟨1, [84, 101, 110, 116], [88], 5, 1, [], [], 9, 3, []⟩ :=
  ⟨(c4_checksum_formula tentOne).1,
   (c4_checksum_formula tentOne).2.2
     ⟨1, [84, 101, 110, 116], [88], 5, 1, [], [], 9, 3, []⟩ rfl rfl rfl rfl⟩

/-- C7: on the file backend, `save_data` followed by `load_data`
reproduces the store exactly: the same equipment records, the same
request records field for field, and the same two allocator counters. -/
theorem c7_file_roundtrip (st : Store) :
    load_data_file (save_data st) = st := by
  cases st
  simp [save_data, load_data_file]

/-- C1 counterexample: in a store holding `Tent` and `Tent2`, the query
`Tent` is answered by the Name Index with the single record `Tent`, and
`check_inventory` then displays only that record — `Tent2`, whose name
also contains the query case-insensitively, is omitted even though the
index found a match. -/
theorem c1_counterexample :
    tentTwo ∈ stC1.inventory ∧
    containsCI tentTwo.name queryTent = true ∧
    tentTwo ∉ check_inventory_results stC1 queryTent := by decide

/-- C1 (amended): `check_inventory` displays every case-insensitive
substring match only when the Name Index finds no match, in which case
the fallback linear scan runs; when `hash_find` returns a record, that
single (matching) record is the entire result, so other matching records
can be omitted. -/
theorem c1_index_or_scan (st : Store) (q : List Nat) :
    (hash_find st q = none →
      ∀ e ∈ st.inventory, containsCI e.name q = true →
        e ∈ check_inventory_results st q) ∧
    (∀ e, hash_find st q = some e →
      check_inventory_results st q = [e] ∧ containsCI e.name q = true) := by
  constructor
  · intro hnone e he hc
    simp only [check_inventory_results, hnone]
    exact List.mem_filter.mpr ⟨he, hc⟩
  · intro e hsome
    refine ⟨by simp only [check_inventory_results, hsome], ?_⟩
    simp only [hash_find] at hsome
    have h' := List.find?_some hsome
    simpa using h'

/-- C1 witness: the scan query `ent` (index miss) returns `Tent2`; the
index query `Tent` returns exactly `[Tent]`. -/
theorem c1_index_or_scan_witness :
    tentTwo ∈ check_inventory_results stC1 queryEnt ∧
    check_inventory_results stC1 queryTent = [tentOne] :=
  ⟨(c1_index_or_scan stC1 queryEnt).1 (by decide) tentTwo (by decide) (by decide),
   ((c1_index_or_scan stC1 queryTent).2 tentOne (by decide)).1⟩

/-- C2 counterexample: from the initial store (no equipment), a supply
request for the unknown equipment id 1 fails, yet the failed call has
already incremented `next_request_id` from 1 to 2 — the request-ID
counter is not unchanged as the claim states. -/
theorem c2_counterexample :
    find_by_id initStore 1 = none ∧
    (request_supply initStore 1 5 [] 1 0 none).2 = none ∧
    (request_supply initStore 1 5 [] 1 0 none).1.next_request_id ≠
      initStore.next_request_id := by decide

/-- C2 (amended): when the equipment id does not resolve (and the
request array is not full), `request_supply` fails and stores no
request — the request collection, the inventory and the item counter are
unchanged — but the failed call consumes a request id: `next_request_id`
is incremented. -/
theorem c2_notfound_consumes_reqid (st : Store) (eqId qty : Nat)
    (u : List Nat) (prio now : Nat) (dbResp : Option Nat)
    (hcap : st.requests.length < MAX_REQUESTS)
    (hmiss : find_by_id st eqId = none) :
    request_supply st eqId qty u prio now dbResp =
      ({ st with next_request_id := st.next_request_id + 1 }, none) := by
  simp [request_supply, hmiss, Nat.not_le.mpr hcap]

/-- C2 witness: the amended behaviour evaluated on the initial store. -/
theorem c2_notfound_consumes_reqid_witness :
    request_supply initStore 1 5 [] 1 0 none =
      ({ initStore with next_request_id := initStore.next_request_id + 1 },
       none) :=
  c2_notfound_consumes_reqid initStore 1 5 [] 1 0 none (by decide) (by decide)

lemma updateFirst_spec (qty now id : Nat) (l : List Equipment) :
    (l.find? (fun e => e.id == id) = none → updateFirst qty now id l = none) ∧
    (∀ e, l.find? (fun e => e.id == id) = some e →
      ∃ i, l[i]? = some e ∧
        updateFirst qty now id l = some (l.set i (updatedRec e qty now))) := by
  induction l with
  | nil => exact ⟨fun _ => rfl, fun e h => by simp at h⟩
  | cons a t ih =>
    by_cases h : (a.id == id) = true
    · refine ⟨fun hn => ?_, fun e he => ?_⟩
      · rw [List.find?_cons] at hn
        simp [h] at hn
      · rw [List.find?_cons] at he
        simp only [h, cond_true, Option.some.injEq] at he
        subst he
        exact ⟨0, by simp, by simp [updateFirst, h]⟩
    · have hf : (a.id == id) = false := by simpa using h
      refine ⟨fun hn => ?_, fun e he => ?_⟩
      · rw [List.find?_cons] at hn
        simp only [hf, cond_false] at hn
        simp [updateFirst, hf, ih.1 hn]
      · rw [List.find?_cons] at he
        simp only [hf, cond_false] at he
        obtain ⟨i, hi, hu⟩ := ih.2 e he
        exact ⟨i + 1, by simpa using hi, by simp [updateFirst, hf, hu]⟩

/-- C8: `update_quantity` on a missing id returns failure and leaves the
store untouched; on the (first) record carrying the id it replaces that
record by `updatedRec` — same id, name, description, min_threshold,
unit, location and classification, with the new quantity, the refreshed
timestamp and the recomputed checksum — and by the `List.set` form every
other record, the request list, both allocator counters and the item
count are unchanged. -/
theorem c8_update_quantity_frame (st : Store) (id qty now : Nat) :
    (find_by_id st id = none → update_quantity st id qty now = (st, false)) ∧
    (∀ e, find_by_id st id = some e →
      ∃ i, st.inventory[i]? = some e ∧
        update_quantity st id qty now =
          ({ st with inventory := st.inventory.set i (updatedRec e qty now) },
           true)) := by
  have h := updateFirst_spec qty now id st.inventory
  constructor
  · intro hn
    simp [update_quantity, h.1 hn]
  · intro e he
    obtain ⟨i, hi, hu⟩ := h.2 e he
    exact ⟨i, hi, by simp [update_quantity, hu]⟩

/-- C8 witness: both branches evaluated on the concrete two-item store —
a missing id leaves the store unchanged, and updating id 2 rewrites
exactly that record. -/
theorem c8_update_quantity_frame_witness :
    update_quantity stC1 9 7 4 = (stC1, false) ∧
    update_quantity stC1 2 7 4 =
      ({ stC1 with inventory := stC1.inventory.set 1 (updatedRec tentTwo 7 4) },
       true) := by
  constructor
  · exact (c8_update_quantity_frame stC1 9 7 4).1 (by decide)
  · obtain ⟨i, hi, hu⟩ := (c8_update_quantity_frame stC1 2 7 4).2 tentTwo (by decide)
    have hione : i = 1 := by
      by_contra hne
      rcases i with _ | _ | i
      · exact absurd hi (by decide)
      · exact hne rfl
      · exact absurd hi (by simp [stC1])
    rw [hione] at hu
    exact hu

lemma add_equipment_requests (st : Store) (d : Draft) (now : Nat)
    (r : Option Nat) : (add_equipment st d now r).1.requests = st.requests := by
  unfold add_equipment
  split
  · rfl
  · cases r with
    | none => rfl
    | some dbId =>
      by_cases h : 0 < dbId <;> simp [h]

lemma update_quantity_requests (st : Store) (id qty now : Nat) :
    (update_quantity st id qty now).1.requests = st.requests := by
  unfold update_quantity
  split <;> rfl

/-- `request_supply` either leaves the request list unchanged or appends
one record whose status is `REQ_PENDING`. -/
lemma request_supply_shape (st : Store) (eqId qty : Nat) (u : List Nat)
    (prio now : Nat) (r : Option Nat) :
    (request_supply st eqId qty u prio now r).1.requests = st.requests ∨
    ∃ req, (request_supply st eqId qty u prio now r).1.requests =
        st.requests ++ [req] ∧ req.status = REQ_PENDING := by
  unfold request_supply
  split
  · exact Or.inl rfl
  · cases hf : find_by_id st eqId with
    | none => simp [hf]
    | some it =>
      cases r with
      | none => simp [hf]
      | some dbId =>
        by_cases h : 0 < dbId <;> simp [hf, h]

lemma applyOp_pending (st : Store) (op : Op)
    (h : ∀ r ∈ st.requests, r.status = REQ_PENDING) :
    ∀ r ∈ (applyOp st op).requests, r.status = REQ_PENDING := by
  cases op with
  | add d now dbResp =>
    rw [applyOp, add_equipment_requests]; exact h
  | updateQty id q now =>
    rw [applyOp, update_quantity_requests]; exact h
  | request e q u p now dbResp =>
    rw [applyOp]
    rcases request_supply_shape st e q u p now dbResp with hs | ⟨req, hs, hp⟩
    · rw [hs]; exact h
    · rw [hs]
      intro r hr
      rcases List.mem_append.mp hr with hr | hr
      · exact h r hr
      · rw [List.mem_singleton.mp hr]; exact hp

lemma runOps_pending (ops : List Op) :
    ∀ st : Store, (∀ r ∈ st.requests, r.status = REQ_PENDING) →
      ∀ r ∈ (runOps st ops).requests, r.status = REQ_PENDING := by
  induction ops with
  | nil => intro st h; exact h
  | cons op rest ih =>
    intro st h
    exact ih (applyOp st op) (applyOp_pending st op h)

/-- C9: no store-mutating operation changes the status of an
already-stored supply request (position by position the status sequence
of the old requests is preserved), and `request_supply` only ever stores
`REQ_PENDING`; hence from the startup state every state reachable by
store operations alone has every stored request pending — the other
statuses can only enter through a backend load. -/
theorem c9_statuses_only_pending :
    (∀ (st : Store) (op : Op) (i : Nat), i < st.requests.length →
      ((applyOp st op).requests.map SupplyRequest.status)[i]? =
        (st.requests.map SupplyRequest.status)[i]?) ∧
    (∀ ops : List Op, ∀ r ∈ (runOps initStore ops).requests,
      r.status = REQ_PENDING) := by
  constructor
  · intro st op i hi
    cases op with
    | add d now dbResp => rw [applyOp, add_equipment_requests]
    | updateQty id q now => rw [applyOp, update_quantity_requests]
    | request e q u p now dbResp =>
      rw [applyOp]
      rcases request_supply_shape st e q u p now dbResp with hs | ⟨req, hs, _⟩
      · rw [hs]
      · rw [hs, List.map_append]
        exact List.getElem?_append_left (by simpa using hi)
  · intro ops
    exact runOps_pending ops initStore (by simp [initStore])

/-- C9 witness: an update on a store holding a pending request keeps the
status sequence, and the request created by a concrete create-then-
request run is pending. -/
theorem c9_statuses_only_pending_witness :
    ((applyOp stReq (Op.updateQty 1 99 5)).requests.map
        SupplyRequest.status)[0]? =
      (stReq.requests.map SupplyRequest.status)[0]? ∧
    reqW.status = REQ_PENDING :=
  ⟨c9_statuses_only_pending.1 stReq (Op.updateQty 1 99 5) 0 (by decide),
   c9_statuses_only_pending.2 opsW reqW (by decide)⟩

/-- Case analysis of one `add_equipment` call: either the capacity check
fails and nothing changes, or one record is appended; the new counter
strictly exceeds the old one; a positive database id becomes the
record's id and stays below the new counter; and under the freshness
assumption the record's id lies in `[old counter, new counter)`. -/
lemma add_step_char (st : Store) (d : Draft) (now : Nat) (r : Option Nat) :
    (MAX_ITEMS ≤ st.inventory.length ∧ add_equipment st d now r = (st, none)) ∨
    (st.inventory.length < MAX_ITEMS ∧
      ∃ item nid,
        add_equipment st d now r =
          ({ st with inventory := st.inventory ++ [item], next_item_id := nid },
           some item) ∧
        st.next_item_id < nid ∧
        (∀ dbId, r = some dbId → 0 < dbId → item.id = dbId ∧ dbId < nid) ∧
        ((∀ dbId, r = some dbId → 0 < dbId → st.next_item_id ≤ dbId) →
          st.next_item_id ≤ item.id ∧ item.id < nid)) := by
  by_cases hcap : MAX_ITEMS ≤ st.inventory.length
  · exact Or.inl ⟨hcap, by simp [add_equipment, hcap]⟩
  · refine Or.inr ⟨by omega, ?_⟩
    cases r with
    | none =>
      refine ⟨newItem st d now, st.next_item_id + 1, ?_, by omega, ?_, ?_⟩
      · unfold add_equipment
        rw [if_neg hcap]
      · intro dbId h
        cases h
      · intro _
        exact ⟨Nat.le_refl _, Nat.lt_succ_self _⟩
    | some dbId =>
      by_cases hpos : 0 < dbId
      · by_cases hle : st.next_item_id + 1 ≤ dbId
        · refine ⟨{ newItem st d now with id := dbId }, dbId + 1, ?_, by omega,
            ?_, ?_⟩
          · unfold add_equipment
            rw [if_neg hcap]
            simp [hpos, hle]
          · intro d' h _
            injection h with h
            subst h
            exact ⟨rfl, Nat.lt_succ_self _⟩
          · intro hf
            exact ⟨hf dbId rfl hpos, Nat.lt_succ_self _⟩
        · refine ⟨{ newItem st d now with id := dbId }, st.next_item_id + 1, ?_,
            by omega, ?_, ?_⟩
          · unfold add_equipment
            rw [if_neg hcap]
            simp [hpos, hle]
          · intro d' h _
            injection h with h
            subst h
            refine ⟨rfl, ?_⟩
            show dbId < st.next_item_id + 1
            omega
          · intro hf
            refine ⟨hf dbId rfl hpos, ?_⟩
            show dbId < st.next_item_id + 1
            omega
      · refine ⟨newItem st d now, st.next_item_id + 1, ?_, by omega, ?_, ?_⟩
        · unfold add_equipment
          rw [if_neg hcap]
          simp [hpos]
        · intro d' h hp
          injection h with h
          subst h
          exact absurd hp hpos
        · intro _
          exact ⟨Nat.le_refl _, Nat.lt_succ_self _⟩

/-- Converts the per-step boolean of `dbFresh` into its meaning. -/
lemma head_fresh_of (st : Store) (o : Option Nat)
    (h : (match o with
          | none => true
          | some dbId => dbId == 0 || decide (st.next_item_id ≤ dbId)) = true) :
    ∀ dbId, o = some dbId → 0 < dbId → st.next_item_id ≤ dbId := by
  intro dbId ho hpos
  subst ho
  simp only [Bool.or_eq_true, beq_iff_eq, decide_eq_true_eq] at h
  rcases h with h | h
  · omega
  · exact h

/-- Appending a record whose id is at least the old counter, while
raising the counter above that id, preserves the store invariant. -/
lemma storeInv_append (st : Store) (item : Equipment) (nid : Nat)
    (hid : st.next_item_id ≤ item.id) (hnid : item.id < nid)
    (hI : StoreInv st) :
    StoreInv { st with inventory := st.inventory ++ [item],
                       next_item_id := nid } := by
  obtain ⟨hlt, hnd⟩ := hI
  constructor
  · intro e he
    rcases List.mem_append.mp he with he | he
    · have := hlt e he
      show e.id < nid
      omega
    · rw [List.mem_singleton.mp he]
      exact hnid
  · show ((st.inventory ++ [item]).map Equipment.id).Nodup
    rw [List.map_append]
    rw [List.nodup_append]
    refine ⟨hnd, List.nodup_singleton _, ?_⟩
    intro a ha hb
    rw [List.mem_singleton.mp hb] at ha
    obtain ⟨e, he, hide⟩ := List.mem_map.mp ha
    have := hlt e he
    omega

/-- The invariants maintained along any sequence of `add_equipment`
calls whose database replies are fresh: the counter never decreases,
every issued id is at least the initial counter, the issued ids are
strictly increasing pairwise, and the store invariant is preserved. -/
lemma run_creates_spec (ds : List (Draft × Nat × Option Nat)) :
    ∀ st : Store, dbFresh st ds = true →
      st.next_item_id ≤ (run_creates st ds).1.next_item_id ∧
      (∀ x ∈ (run_creates st ds).2, st.next_item_id ≤ x) ∧
      List.Pairwise (· < ·) (run_creates st ds).2 ∧
      (StoreInv st → StoreInv (run_creates st ds).1) := by
  induction ds with
  | nil =>
    intro st _
    exact ⟨Nat.le_refl _, by simp [run_creates], by simp [run_creates],
      fun h => h⟩
  | cons c rest ih =>
    intro st hfresh
    simp only [dbFresh, Bool.and_eq_true] at hfresh
    obtain ⟨hhead, htail⟩ := hfresh
    rcases add_step_char st c.1 c.2.1 c.2.2 with ⟨_, heq⟩ |
      ⟨_, item, nid, heq, hlt, _, hfr⟩
    · have htail' : dbFresh st rest = true := by
        rw [heq] at htail
        exact htail
      have hrun : run_creates st (c :: rest) = run_creates st rest := by
        simp only [run_creates]
        rw [heq]
        rfl
      rw [hrun]
      exact ih st htail'
    · have hfr' := hfr (head_fresh_of st c.2.2 hhead)
      set st' : Store :=
        { st with inventory := st.inventory ++ [item], next_item_id := nid }
        with hst'
      have htail' : dbFresh st' rest = true := by
        rw [heq] at htail
        exact htail
      have hrun : run_creates st (c :: rest) =
          ((run_creates st' rest).1, item.id :: (run_creates st' rest).2) := by
        simp only [run_creates]
        rw [heq]
        rfl
      obtain ⟨hmono, hlb, hpw, hinv⟩ := ih st' htail'
      have hnid : st'.next_item_id = nid := rfl
      rw [hrun]
      refine ⟨?_, ?_, ?_, ?_⟩
      · show st.next_item_id ≤ (run_creates st' rest).1.next_item_id
        rw [hnid] at hmono
        omega
      · show ∀ x ∈ item.id :: (run_creates st' rest).2, st.next_item_id ≤ x
        intro x hx
        rcases List.mem_cons.mp hx with rfl | hx
        · exact hfr'.1
        · have := hlb x hx
          rw [hnid] at this
          omega
      · show List.Pairwise (· < ·) (item.id :: (run_creates st' rest).2)
        rw [List.pairwise_cons]
        refine ⟨fun y hy => ?_, hpw⟩
        have := hlb y hy
        rw [hnid] at this
        have := hfr'.2
        omega
      · intro hI
        exact hinv (storeInv_append st item nid hfr'.1 hfr'.2 hI)

lemma updateFirst_map_id (qty now id : Nat) (l : List Equipment) :
    ∀ l', updateFirst qty now id l = some l' →
      l'.map Equipment.id = l.map Equipment.id := by
  induction l with
  | nil => intro l' h; cases h
  | cons a t ih =>
    intro l' h
    by_cases ha : (a.id == id) = true
    · simp only [updateFirst, ha, if_true] at h
      injection h with h
      subst h
      simp [updatedRec]
    · simp only [updateFirst, ha, if_false] at h
      cases hu : updateFirst qty now id t with
      | none => rw [hu] at h; cases h
      | some t' =>
        rw [hu] at h
        injection h with h
        subst h
        simp [ih t' hu]

lemma update_quantity_inv (st : Store) (id q now : Nat)
    (hI : StoreInv st) : StoreInv (update_quantity st id q now).1 := by
  cases hu : updateFirst q now id st.inventory with
  | none =>
    simp only [update_quantity, hu]
    exact hI
  | some inv' =>
    simp only [update_quantity, hu]
    obtain ⟨h1, h2⟩ := hI
    have hm := updateFirst_map_id q now id st.inventory inv' hu
    constructor
    · intro e he
      have hmem : e.id ∈ inv'.map Equipment.id := List.mem_map_of_mem _ he
      rw [hm] at hmem
      obtain ⟨e₀, he₀, hide⟩ := List.mem_map.mp hmem
      show e.id < st.next_item_id
      rw [← hide]
      exact h1 e₀ he₀
    · show (inv'.map Equipment.id).Nodup
      rw [hm]
      exact h2

lemma request_supply_store_parts (st : Store) (eqId qty : Nat) (u : List Nat)
    (prio now : Nat) (r : Option Nat) :
    (request_supply st eqId qty u prio now r).1.inventory = st.inventory ∧
    (request_supply st eqId qty u prio now r).1.next_item_id =
      st.next_item_id := by
  unfold request_supply
  split
  · exact ⟨rfl, rfl⟩
  · cases hf : find_by_id st eqId with
    | none => simp [hf]
    | some it =>
      cases r with
      | none => simp [hf]
      | some dbId => by_cases h : 0 < dbId <;> simp [hf, h]

lemma request_supply_inv (st : Store) (eqId qty : Nat) (u : List Nat)
    (prio now : Nat) (r : Option Nat) (hI : StoreInv st) :
    StoreInv (request_supply st eqId qty u prio now r).1 := by
  obtain ⟨h1, h2⟩ := request_supply_store_parts st eqId qty u prio now r
  unfold StoreInv
  rw [h1, h2]
  exact hI

/-- C6: along any sequence of `add_equipment` calls in one session
(offline calls, and database calls whose returned ids are fresh, as an
autoincrement column yields), the ids of the successfully created
records are strictly increasing in issuance order and pairwise distinct;
and every store operation preserves the invariant that the held ids are
pairwise distinct and below the allocator counter. -/
theorem c6_create_ids_strictly_increasing (st : Store) :
    (∀ ds, dbFresh st ds = true →
      List.Chain' (· < ·) (run_creates st ds).2 ∧
      (run_creates st ds).2.Nodup ∧
      (StoreInv st → StoreInv (run_creates st ds).1)) ∧
    (∀ id q now, StoreInv st → StoreInv (update_quantity st id q now).1) ∧
    (∀ eqId q u p now r, StoreInv st →
      StoreInv (request_supply st eqId q u p now r).1) := by
  refine ⟨fun ds hfresh => ?_, fun id q now => update_quantity_inv st id q now,
    fun eqId q u p now r => request_supply_inv st eqId q u p now r⟩
  obtain ⟨_, _, hpw, hinv⟩ := run_creates_spec ds st hfresh
  exact ⟨hpw.chain', hpw.imp Nat.ne_of_lt, hinv⟩

/-- C6 witness: two offline creates from the startup state issue the
strictly increasing ids 1, 2 and preserve the invariant. -/
theorem c6_create_ids_strictly_increasing_witness :
    List.Chain' (· < ·) (run_creates initStore dsW).2 ∧
    (run_creates initStore dsW).2.Nodup ∧
    StoreInv (run_creates initStore dsW).1 :=
  ⟨((c6_create_ids_strictly_increasing initStore).1 dsW (by decide)).1,
   ((c6_create_ids_strictly_increasing initStore).1 dsW (by decide)).2.1,
   ((c6_create_ids_strictly_increasing initStore).1 dsW (by decide)).2.2
     (by constructor <;> decide)⟩

lemma db_foldl_ge (items : List Equipment) (n : Nat) :
    n ≤ items.foldl (fun m e => if m ≤ e.id then e.id + 1 else m) n := by
  induction items generalizing n with
  | nil => exact Nat.le_refl n
  | cons a t ih =>
    simp only [List.foldl]
    exact le_trans (by split <;> omega) (ih _)

lemma db_foldl_gt (items : List Equipment) (n : Nat) :
    ∀ e ∈ items,
      e.id < items.foldl (fun m e => if m ≤ e.id then e.id + 1 else m) n := by
  induction items generalizing n with
  | nil => intro e he; simp at he
  | cons a t ih =>
    intro e he
    simp only [List.foldl]
    rcases List.mem_cons.mp he with rfl | he
    · exact lt_of_lt_of_le (by split <;> omega) (db_foldl_ge t _)
    · exact ih _ e he

/-- C5 counterexample: loading a file snapshot whose stored counter is
5 while it holds a record with id 5 leaves the allocator at 5 (not at
`max(loaded ids) + 1 = 6`), and the very next offline create issues the
id 5 — equal to a loaded id.  The file backend trusts the stored
counter; it does not re-derive it from the loaded ids. -/
theorem c5_counterexample :
    itemFive ∈ (load_data_file fileFive).inventory ∧
    itemFive.id = 5 ∧
    ¬ itemFive.id < (load_data_file fileFive).next_item_id ∧
    (run_creates (load_data_file fileFive) [(draftA, 0, none)]).2 = [5] := by
  decide

/-- C5 (amended): the database backend's load really advances the
counter past every loaded id, but the file backend restores the
snapshot's stored counter verbatim; the no-collision property for
subsequent creates therefore holds provided the snapshot's counter
exceeds every stored id (as every snapshot written by `save_data` from
an invariant-satisfying store does).  On a database insert the allocator
does re-synchronize: the committed id is the returned id and the new
counter exceeds it. -/
theorem c5_allocator_resync :
    (∀ (st : Store) (items : List Equipment),
      ∀ e ∈ (db_load_items st items).inventory,
        e.id < (db_load_items st items).next_item_id) ∧
    (∀ f : FileData, (load_data_file f).next_item_id = f.nextItemId) ∧
    (∀ f : FileData,
      (∀ e ∈ (load_data_file f).inventory, e.id < f.nextItemId) →
      ∀ ds, dbFresh (load_data_file f) ds = true →
        ∀ x ∈ (run_creates (load_data_file f) ds).2,
          ∀ e ∈ (load_data_file f).inventory, x ≠ e.id) ∧
    (∀ (st : Store) (d : Draft) (now dbId : Nat),
      st.inventory.length < MAX_ITEMS → 0 < dbId →
      dbId < (add_equipment st d now (some dbId)).1.next_item_id ∧
      ∀ item, (add_equipment st d now (some dbId)).2 = some item →
        item.id = dbId) := by
  refine ⟨?_, fun _ => rfl, ?_, ?_⟩
  · intro st items e he
    exact db_foldl_gt (items.take MAX_ITEMS) st.next_item_id e he
  · intro f hids ds hfresh x hx e he
    have hlb := (run_creates_spec ds (load_data_file f) hfresh).2.1 x hx
    have hid := hids e he
    have hcounter : (load_data_file f).next_item_id = f.nextItemId := rfl
    omega
  · intro st d now dbId hcap hpos
    rcases add_step_char st d now (some dbId) with ⟨hc, _⟩ |
      ⟨_, item, nid, heq, _, hdb, _⟩
    · omega
    · obtain ⟨hid, hlt⟩ := hdb dbId rfl hpos
      constructor
      · rw [heq]
        exact hlt
      · intro item' hitem'
        rw [heq] at hitem'
        injection hitem' with hitem'
        rw [← hitem']
        exact hid

/-- C5 witness: the database load of a record with id 5 pushes the
counter past 5; a well-formed snapshot (counter 6 over a loaded id 5)
yields a first created id 6, distinct from the loaded id; and a database
insert answered with id 7 leaves the counter above 7. -/
theorem c5_allocator_resync_witness :
    itemFive.id < (db_load_items initStore [itemFive]).next_item_id ∧
    (load_data_file fileGood).next_item_id = fileGood.nextItemId ∧
    (6 : Nat) ≠ itemFive.id ∧
    (7 : Nat) < (add_equipment initStore draftA 0 (some 7)).1.next_item_id :=
  ⟨c5_allocator_resync.1 initStore [itemFive] itemFive (by decide),
   c5_allocator_resync.2.1 fileGood,
   c5_allocator_resync.2.2.1 fileGood (by decide) [(draftA, 0, none)]
     (by decide) 6 (by decide) itemFive (by decide),
   (c5_allocator_resync.2.2.2 initStore draftA 0 7 (by decide) (by decide)).1⟩

lemma calculate_checksum_eq (e : Equipment) :
    calculate_checksum e =
      (e.id + e.quantity + e.min_threshold + e.name.sum) % 10000 := by
  unfold calculate_checksum
  rw [foldl_add_eq]

lemma format4_inj (m n : Nat) (hm : m < 10000) (hn : n < 10000)
    (h : format4 m = format4 n) : m = n := by
  simp only [format4, List.cons.injEq, and_true] at h
  omega

/-- C10 counterexample: creating `draftA` from the startup state with the
database returning id 10001 commits a record whose checksum field was
computed under the allocator id 1; since `10001 ≡ 1 [MOD 10000]` the
stale checksum nevertheless equals the checksum recomputed from the
record as stored, so the claim's unconditional "differs" clause is
false. -/
theorem c10_counterexample :
    (add_equipment initStore draftA 0 (some 10001)).2 = some itemCongruent ∧
    itemCongruent.id ≠ initStore.next_item_id ∧
    itemCongruent.checksum = format4 (calculate_checksum itemCongruent) := by
  decide

/-- C10 (amended): in database mode the committed record's id is the
database's id, its checksum field is the one computed under the
allocator's id (it is never recomputed after the overwrite), and the
stale checksum differs from the checksum recomputed from the record as
stored whenever the allocator id and the database id are incongruent
modulo 10000. -/
theorem c10_stale_checksum_db_id (st : Store) (d : Draft) (now dbId : Nat)
    (hcap : st.inventory.length < MAX_ITEMS) (hpos : 0 < dbId) :
    ∀ item, (add_equipment st d now (some dbId)).2 = some item →
      item.id = dbId ∧
      item.checksum =
        format4 (calculate_checksum { item with id := st.next_item_id }) ∧
      (st.next_item_id % 10000 ≠ dbId % 10000 →
        item.checksum ≠ format4 (calculate_checksum item)) := by
  intro item hitem
  have hcap' : ¬ MAX_ITEMS ≤ st.inventory.length := by omega
  unfold add_equipment at hitem
  rw [if_neg hcap'] at hitem
  simp only [if_pos hpos, Option.some.injEq] at hitem
  subst hitem
  refine ⟨rfl, rfl, ?_⟩
  intro hne hcontra
  have h2 : ({ newItem st d now with id := dbId } : Equipment).checksum =
      format4 (calculate_checksum
        { ({ newItem st d now with id := dbId } : Equipment) with
            id := st.next_item_id }) := rfl
  rw [h2] at hcontra
  have hb : calculate_checksum
      { ({ newItem st d now with id := dbId } : Equipment) with
          id := st.next_item_id } =
      (st.next_item_id + d.quantity + d.min_threshold + d.name.sum) % 10000 := by
    rw [calculate_checksum_eq]
    rfl
  rw [hb, calculate_checksum_eq] at hcontra
  dsimp only [newItem] at hcontra
  have := format4_inj _ _ (Nat.mod_lt _ (by omega)) (Nat.mod_lt _ (by omega))
    hcontra
  omega

/-- C10 witness: the database returns id 7 for `draftA` created from the
startup state; the committed record carries id 7 but the checksum
computed under the allocator id 1, which no longer matches a
recomputation. -/
theorem c10_stale_checksum_db_id_witness :
    itemSeven.id = 7 ∧
    itemSeven.checksum =
      format4 (calculate_checksum { itemSeven with id := initStore.next_item_id }) ∧
    itemSeven.checksum ≠ format4 (calculate_checksum itemSeven) := by
  have h := c10_stale_checksum_db_id initStore draftA 0 7 (by decide) (by decide)
    itemSeven (by decide)
  exact ⟨h.1, h.2.1, h.2.2 (by decide)⟩

end EquipTracker
